import Mathlib

/-!
Verification development for the `proj` coordinate-reprojection library.

The program transforms geographic coordinates (longitude/latitude) to and
from projected Cartesian coordinates according to a projection definition
string.  The definitions below are a shallow embedding of the source:

* the parameter parser and the coordinate-conversion facade
  (package `proj`, file with `Convert`/`Inverse`/`isGeographicSystem`);
* the Winkel Tripel operation (`operations/Wintri.go`);
* the Lambert Conformal Conic operation (`operations/lcc.go`);
* small pieces of the `support` and `core` packages (degree/radian
  conversion, ellipsoid construction, operation registry) that the facade
  and the operations call into; those sources are not part of the provided
  tree, so they are modelled from the specification and marked as such.

Machine floating point is embedded as the real numbers `ℝ`; `float64`
operations become the corresponding real operations, so the theorems below
are about the exact-arithmetic behaviour of the algorithms.  String and
rational-number level code (the parser) is kept computable so concrete
runs of it reduce by `decide`/`rfl`.
-/

open Real

/-- Error kinds of the library (package `merror` plus the `fmt.Errorf`
errors of the facade, named as the spec names them in section 7). -/
inductive Err where
  | malformedParameter
  | invalidArg
  | unsupportedProjection
  | invalidArgumentCount
  | toleranceCondition
  | notFound
  deriving DecidableEq, Repr

/-- `core.CoordLP`: longitude `lam` and latitude `phi`, in radians. -/
structure CoordLP where
  phi : ℝ
  lam : ℝ

/-- `core.CoordXY`: projected coordinates in linear units. -/
structure CoordXY where
  x : ℝ
  y : ℝ

/-- `core.Ellipsoid`, restricted to the fields the embedded operations
read: semi-major axis `A`, first eccentricity `E` and its square `Es`. -/
structure Ellipsoid where
  a : ℝ
  e : ℝ
  es : ℝ

/-- `support.ProjString`: the parsed parameter set, a key/value list in
token order.  Duplicate keys resolve to the last written one. -/
abbrev ProjString := List (String × String)

/-- Modelled from the spec: splitting the definition string on whitespace
(section 4.1 of the spec; the `support` package source is not in the
tree).  Returns the maximal non-blank runs of characters. -/
def splitBlanks : List Char → List Char → List (List Char)
  | [], acc => if acc.isEmpty then [] else [acc.reverse]
  | c :: rest, acc =>
    if c = ' ' ∨ c = '\t' ∨ c = '\n' then
      if acc.isEmpty then splitBlanks rest [] else acc.reverse :: splitBlanks rest []
    else
      splitBlanks rest (c :: acc)

/-- Modelled from the spec: one token is `key` or `key=value`, optionally
prefixed with `+`; a bare key is recorded with an empty value; a token
that is empty after trimming its delimiters is malformed. -/
def parseToken (tok : List Char) : Except Err (String × String) :=
  let tok := tok.dropWhile (· = '+')
  if tok.isEmpty then .error .malformedParameter
  else
    let key := tok.takeWhile (· ≠ '=')
    let rest := tok.dropWhile (· ≠ '=')
    match rest with
    | [] => .ok (String.mk key, "")
    | _ :: val => .ok (String.mk key, String.mk val)

/-- Modelled from the spec: token list to parameter list, failing on the
first malformed token. -/
def parseTokens : List (List Char) → Except Err ProjString
  | [] => .ok []
  | t :: ts => do
    let p ← parseToken t
    let ps ← parseTokens ts
    .ok (p :: ps)

/-- Modelled from the spec: `support.NewProjString`, the parameter parser
of section 4.1: `parse(text) -> ParameterSet | ParseError`. -/
def NewProjString (s : String) : Except Err ProjString :=
  parseTokens (splitBlanks s.data [])

/-- Modelled from the spec: `ProjString.GetAsString` typed accessor;
returns the raw value and a presence flag (here an `Option`), with
last-write-wins for duplicate keys. -/
def GetAsString (ps : ProjString) (key : String) : Option String :=
  (ps.reverse.find? (fun p => p.1 == key)).map (·.2)

/-- Modelled from the spec: numeric value of a decimal digit run, most
significant digit first, folded onto an accumulator. -/
def digitsVal : List Char → ℕ → Option ℕ
  | [], acc => some acc
  | c :: rest, acc =>
    if c.isDigit then digitsVal rest (acc * 10 + (c.toNat - '0'.toNat))
    else none

/-- Modelled from the spec: parse of a (signed) decimal literal into an
exact rational; returns `none` on a non-numeric value, which the typed
accessor reports as absence rather than an error. -/
def parseRat (s : String) : Option ℚ :=
  let cs := s.data
  let (neg, cs) :=
    match cs with
    | '-' :: rest => (true, rest)
    | '+' :: rest => (false, rest)
    | _ => (false, cs)
  if cs.isEmpty then none
  else
    let intPart := cs.takeWhile (· ≠ '.')
    let rest := cs.dropWhile (· ≠ '.')
    let build (ip : ℕ) (fp : ℕ) (fdigits : ℕ) : ℚ :=
      let den : ℕ := 10 ^ fdigits
      let mag : ℚ := mkRat (ip * den + fp : ℕ) den
      if neg then Rat.neg mag else mag
    match rest with
    | [] => (digitsVal intPart 0).map (fun ip => build ip 0 0)
    | _ :: frac =>
      if frac.isEmpty ∧ intPart.isEmpty then none
      else do
        let ip ← digitsVal intPart 0
        let fp ← digitsVal frac 0
        some (build ip fp frac.length)

/-- Modelled from the spec: `ProjString.GetAsFloat` typed accessor; the
numeric value of the parameter, `none` when absent or non-numeric. -/
def GetAsFloat (ps : ProjString) (key : String) : Option ℚ :=
  (GetAsString ps key).bind parseRat

/-- `core.System`: the parsed parameter set together with the derived
ellipsoid, handed to every operation. -/
structure System where
  projString : ProjString
  ellipsoid : Ellipsoid

/-- Modelled from the spec: `support.DDToR`, degrees to radians at the
conversion boundary (section 4.8). -/
noncomputable def DDToR (d : ℝ) : ℝ := d * π / 180

/-- Modelled from the spec: `support.RToDD`, radians to degrees at the
conversion boundary. -/
noncomputable def RToDD (r : ℝ) : ℝ := r * 180 / π

/-- Modelled from the spec: `support.Tsfn`, the isometric-latitude
quantity `t` of conformal conic projections (glossary entry; the inverse
recurrence visible in `lcc.go` is its inverse). -/
noncomputable def Tsfn (phi sinphi e : ℝ) : ℝ :=
  Real.tan (0.5 * (π / 2 - phi)) / ((1 - sinphi * e) / (1 + sinphi * e)) ^ (0.5 * e)

/-- Modelled from the spec: `support.Msfn`, the meridional scale factor
used when deriving the cone constant of a conic projection. -/
noncomputable def Msfn (sinphi cosphi es : ℝ) : ℝ :=
  cosphi / Real.sqrt (1 - es * sinphi * sinphi)

/-- `math.Copysign f sign`: the magnitude of `f` with the sign of
`sign` (signed zero is not observable in the real embedding). -/
noncomputable def copysign (f sign : ℝ) : ℝ := if sign < 0 then -|f| else |f|

/-- `math.Atan2 y x`: the angle of the point `(x, y)`, modelled by the
usual piecewise definition in terms of `Real.arctan`. -/
noncomputable def atan2 (y x : ℝ) : ℝ :=
  if 0 < x then Real.arctan (y / x)
  else if x < 0 then
    (if 0 ≤ y then Real.arctan (y / x) + π else Real.arctan (y / x) - π)
  else
    (if 0 < y then π / 2 else if y < 0 then -(π / 2) else 0)

/-- Modelled from the spec: the named reference ellipsoids used by the
definition strings of this repository's tests, as `(a, reciprocal
flattening)` pairs (section 4.2, resolution step 1). -/
def ellipsoidTable (name : String) : Option (ℚ × ℚ) :=
  if name == "GRS80" then some (6378137, 298257222101 / 1000000000)
  else if name == "WGS84" then some (6378137, 298257223563 / 1000000000)
  else none

/-- Modelled from the spec: derive an ellipsoid from `a` and the
reciprocal flattening `rf` by the standard identity `es = f * (2 - f)`. -/
noncomputable def ellipsoidOfARf (a rf : ℝ) : Ellipsoid :=
  let f := 1 / rf
  let es := f * (2 - f)
  ⟨a, Real.sqrt es, es⟩

/-- Modelled from the spec: ellipsoid construction,
`build(params) -> Ellipsoid | ConfigError` (section 4.2).  Resolution
order: named ellipsoid, explicit `a`+`b` (with `es = 1 - (b/a)^2`),
explicit `a`+`rf`, explicit `a` alone meaning a sphere; `InvalidArg`
when no axis information is resolvable. -/
noncomputable def buildEllipsoid (ps : ProjString) : Except Err Ellipsoid :=
  match GetAsString ps "ellps" with
  | some name =>
    match ellipsoidTable name with
    | some (a, rf) => .ok (ellipsoidOfARf (a : ℝ) (rf : ℝ))
    | none => .error .invalidArg
  | none =>
    match GetAsFloat ps "a" with
    | none => .error .invalidArg
    | some a =>
      match GetAsFloat ps "b" with
      | some b =>
        let es : ℝ := 1 - ((b : ℝ) / (a : ℝ)) ^ 2
        .ok ⟨(a : ℝ), Real.sqrt es, es⟩
      | none =>
        match GetAsFloat ps "rf" with
        | some rf => .ok (ellipsoidOfARf (a : ℝ) (rf : ℝ))
        | none => .ok ⟨(a : ℝ), 0, 0⟩

/-! ## The Winkel Tripel operation (`operations/Wintri.go`) -/

/-- `eps10` of `operations/common.go`. -/
noncomputable def eps10 : ℝ := 1e-10

/-- The `Wintri` operation struct: standard parallel `lat1` (radians)
and its cosine, precomputed by `wintriSetup`. -/
structure Wintri where
  lat1 : ℝ
  cosLat1 : ℝ

/-- `wintriSetup` (`Wintri.go` lines 182-198): forces the system
ellipsoid's `Es` to `0`, defaults `lat1` to `acos(2/π)` when the `lat_1`
parameter is absent, computes `cosLat1`, and when `|lat1| > π/2` clamps
`lat1` to `±π/2` and recomputes `cosLat1`.  The Go function mutates the
system through a pointer, so the embedding returns the updated system
alongside the operation; its only return value is `nil` error. -/
noncomputable def wintriSetup (sys : System) : System × Wintri :=
  let sys' := { sys with ellipsoid := { sys.ellipsoid with es := 0 } }
  let lat1 : ℝ :=
    match GetAsFloat sys.projString "lat_1" with
    | some v => DDToR (v : ℝ)
    | none => Real.arccos (2 / π)
  let cosLat1 := Real.cos lat1
  let (lat1, cosLat1) :=
    if |lat1| > π / 2 then
      (copysign (π / 2) lat1, Real.cos (copysign (π / 2) lat1))
    else (lat1, cosLat1)
  (sys', ⟨lat1, cosLat1⟩)

/-- `NewWintri` (`Wintri.go` lines 34-43): runs `wintriSetup`, whose
only return is `nil` error, and returns the operation. -/
noncomputable def NewWintri (sys : System) : Except Err (System × Wintri) :=
  .ok (wintriSetup sys)

/-- `Wintri.Forward` (`Wintri.go` lines 46-80) as a total function: the
average of the equirectangular point `(lon * cosLat1, lat)` and the
Aitoff point, with the two degenerate branches (`alpha < eps10`, then
`sin alpha < eps10`) returning limiting values. -/
noncomputable def wintriForwardXY (op : Wintri) (lp : CoordLP) : CoordXY :=
  let lat := lp.phi
  let lon := lp.lam
  let x1 := lon * op.cosLat1
  let y1 := lat
  let cosLat := Real.cos lat
  let cosHalfLon := Real.cos (lon * 0.5)
  let alpha := Real.arccos (cosLat * cosHalfLon)
  let x2y2 : ℝ × ℝ :=
    if alpha < eps10 then (lon, lat)
    else
      let sinAlpha := Real.sin alpha
      if sinAlpha < eps10 then (0, 0)
      else
        let factor := alpha / sinAlpha
        (2 * cosLat * Real.sin (lon * 0.5) * factor, Real.sin lat * factor)
  ⟨0.5 * (x1 + x2y2.1), 0.5 * (y1 + x2y2.2)⟩

/-- `Wintri.Forward` with the Go signature `(*CoordXY, error)`: the
function's only return statement is `return &xy, nil`. -/
noncomputable def wintriForward (op : Wintri) (lp : CoordLP) : Except Err CoordXY :=
  .ok (wintriForwardXY op lp)

/-- The latitude clamp of `Wintri.Inverse` (lines 95-99 for the seed and
162-166 after a Newton step): clamp into `[-π/2, π/2]`. -/
noncomputable def clampPhi (phi : ℝ) : ℝ :=
  if phi > π * 0.5 then π * 0.5
  else if phi < -(π * 0.5) then -(π * 0.5)
  else phi

/-- The longitude clamp of the seed of `Wintri.Inverse` (lines 101-105):
clamp into `[-π, π]` (the seed clamps; the per-step normalization
`wrapLam` wraps). -/
noncomputable def clampLamSeed (lam : ℝ) : ℝ :=
  if lam > π then π else if lam < -π then -π else lam

/-- The longitude normalization of `Wintri.Inverse` (lines 168-173): the
two `for` loops subtract (then add) `2π` until `lam` lies in `[-π, π]`.
The loops are embedded by their closed form: the first runs
`⌈(lam - π) / (2π)⌉` times, the second `⌈(-π - lam) / (2π)⌉` times. -/
noncomputable def wrapLam (lam : ℝ) : ℝ :=
  let lam1 := if lam > π then lam - 2 * π * (⌈(lam - π) / (2 * π)⌉ : ℤ) else lam
  if lam1 < -π then lam1 + 2 * π * (⌈(-π - lam1) / (2 * π)⌉ : ℤ) else lam1

/-- The seed of `Wintri.Inverse` (lines 92-105): linear approximation
`(y, x / cosLat1)` clamped into range. -/
noncomputable def wintriSeed (op : Wintri) (x y : ℝ) : CoordLP :=
  ⟨clampPhi y, clampLamSeed (x / op.cosLat1)⟩

/-- The residual of the current estimate against the inverse target
(lines 108-115): `forward(estimate) - (x, y)`. -/
noncomputable def wintriResidual (op : Wintri) (x y : ℝ) (s : CoordLP) : ℝ × ℝ :=
  let t := wintriForwardXY op s
  (t.x - x, t.y - y)

/-- The convergence test of `Wintri.Inverse` (line 116): both residual
components below `1e-14` in absolute value. -/
noncomputable def wintriConverged (op : Wintri) (x y : ℝ) (s : CoordLP) : Prop :=
  |(wintriResidual op x y s).1| < 1e-14 ∧ |(wintriResidual op x y s).2| < 1e-14

/-- The divergence guard of `Wintri.Inverse` (line 120): either residual
component exceeding `10`. -/
noncomputable def wintriResetCond (op : Wintri) (x y : ℝ) (s : CoordLP) : Prop :=
  |(wintriResidual op x y s).1| > 10 ∨ |(wintriResidual op x y s).2| > 10

/-- The adaptive finite-difference step of `Wintri.Inverse` (line 126). -/
noncomputable def wintriDelta (s : CoordLP) : ℝ :=
  max 1e-8 (min 1e-6 (max |s.phi| |s.lam| * 1e-8))

/-- The finite-difference Jacobian entries of `Wintri.Inverse`
(lines 128-144), as `(dxdPhi, dydPhi, dxdLam, dydLam)`. -/
noncomputable def wintriJacobian (op : Wintri) (s : CoordLP) : ℝ × ℝ × ℝ × ℝ :=
  let delta := wintriDelta s
  let t := wintriForwardXY op s
  let t1 := wintriForwardXY op ⟨s.phi + delta, s.lam⟩
  let t2 := wintriForwardXY op ⟨s.phi, s.lam + delta⟩
  ((t1.x - t.x) / delta, (t1.y - t.y) / delta,
   (t2.x - t.x) / delta, (t2.y - t.y) / delta)

/-- The Jacobian determinant of `Wintri.Inverse` (line 146). -/
noncomputable def wintriDet (op : Wintri) (s : CoordLP) : ℝ :=
  let j := wintriJacobian op s
  j.1 * j.2.2.2 - j.2.1 * j.2.2.1

/-- The damped Newton update of `Wintri.Inverse` (lines 151-173): solve
the 2×2 system, damp by `0.5` when either step component exceeds `0.1`,
apply the step, then re-clamp `phi` and wrap `lam`. -/
noncomputable def wintriNewtonNext (op : Wintri) (x y : ℝ) (s : CoordLP) : CoordLP :=
  let r := wintriResidual op x y s
  let j := wintriJacobian op s
  let det := wintriDet op s
  let dphi := (j.2.2.2 * r.1 - j.2.2.1 * r.2) / det
  let dlam := (j.1 * r.2 - j.2.1 * r.1) / det
  let damping : ℝ := if |dphi| > 0.1 ∨ |dlam| > 0.1 then 0.5 else 1
  ⟨clampPhi (s.phi - damping * dphi), wrapLam (s.lam - damping * dlam)⟩

/-- Outcome of one iteration of the `Wintri.Inverse` loop body. -/
inductive WStepResult where
  | done (lp : CoordLP)
  | next (lp : CoordLP)
  | fail (e : Err)

/-- One iteration of the `Wintri.Inverse` loop body (lines 107-174).
The three `Forward` calls are made through `wintriForward`, whose error
results feed the `err != nil` checks of the Go code; `continue` after a
failed perturbed call leaves the state unchanged (the halved `delta` is
a loop-local variable recomputed on the next iteration).  The named
definitions `wintriConverged`, `wintriResetCond`, `wintriDet` and
`wintriNewtonNext` spell out the corresponding inline expressions of
the Go body; `Forward` is pure, so rebinding its value in them is
observationally identical to the Go single binding. -/
noncomputable def wintriStep (op : Wintri) (x y : ℝ) (s : CoordLP) : WStepResult :=
  match wintriForward op s with
  | .error e => .fail e
  | .ok t =>
    let dx := t.x - x
    let dy := t.y - y
    if |dx| < 1e-14 ∧ |dy| < 1e-14 then .done s
    else if |dx| > 10 ∨ |dy| > 10 then .next ⟨y * 0.9, x * 0.9 / op.cosLat1⟩
    else
      match wintriForward op ⟨s.phi + wintriDelta s, s.lam⟩ with
      | .error _ => .next s
      | .ok _ =>
        match wintriForward op ⟨s.phi, s.lam + wintriDelta s⟩ with
        | .error _ => .next s
        | .ok _ =>
          if |wintriDet op s| < 1e-15 then .fail .toleranceCondition
          else .next (wintriNewtonNext op x y s)

/-- The bounded iteration of `Wintri.Inverse` (`for range maxIter`,
lines 107-174): run the body at most `fuel` times; a `break` on
convergence and running out of iterations both return the current
estimate without error. -/
noncomputable def wintriInverseLoop (op : Wintri) (x y : ℝ) :
    ℕ → CoordLP → Except Err CoordLP
  | 0, s => .ok s
  | n + 1, s =>
    match wintriStep op x y s with
    | .done lp => .ok lp
    | .fail e => .error e
    | .next s' => wintriInverseLoop op x y n s'

/-- `Wintri.Inverse` (`Wintri.go` lines 83-180): seed from the linear
approximation, clamp, then iterate the damped Newton body at most
`maxIter = 30` times. -/
noncomputable def wintriInverse (op : Wintri) (xy : CoordXY) : Except Err CoordLP :=
  wintriInverseLoop op xy.x xy.y 30 (wintriSeed op xy.x xy.y)

/-- The `Wintri.Inverse` loop body with the `err != nil` checks on the
three `Forward` calls removed (used to state that those checks are
unreachable, `Forward` having no failing return path). -/
noncomputable def wintriStepT (op : Wintri) (x y : ℝ) (s : CoordLP) : WStepResult :=
  let t := wintriForwardXY op s
  let dx := t.x - x
  let dy := t.y - y
  if |dx| < 1e-14 ∧ |dy| < 1e-14 then .done s
  else if |dx| > 10 ∨ |dy| > 10 then .next ⟨y * 0.9, x * 0.9 / op.cosLat1⟩
  else if |wintriDet op s| < 1e-15 then .fail .toleranceCondition
  else .next (wintriNewtonNext op x y s)

/-- The bounded iteration built on `wintriStepT`. -/
noncomputable def wintriInverseLoopT (op : Wintri) (x y : ℝ) :
    ℕ → CoordLP → Except Err CoordLP
  | 0, s => .ok s
  | n + 1, s =>
    match wintriStepT op x y s with
    | .done lp => .ok lp
    | .fail e => .error e
    | .next s' => wintriInverseLoopT op x y n s'

/-! ## The Lambert Conformal Conic operation (`lcc.go`) -/

/-- `LCCIterationEpsilon` of `lcc.go` (line 259). -/
noncomputable def LCCIterationEpsilon : ℝ := 1e-18

/-- The `LCC` operation struct: the back-reference to its system and the
constants precomputed by `lccSetup`. -/
structure LCC where
  sys : System
  n : ℝ
  F : ℝ
  rho0 : ℝ
  lambda0 : ℝ
  phi0 : ℝ
  phi1 : ℝ
  phi2 : ℝ
  x0 : ℝ
  y0 : ℝ

/-- `LCC.Forward` (`lcc.go` lines 289-300): conformal conic equations
`rho = F * t^n`, `x = rho * sin(n * lam)`, `y = rho0 - rho * cos(n *
lam)`; its only return is `(xy, nil)`. -/
noncomputable def lccForwardXY (op : LCC) (lp : CoordLP) : CoordXY :=
  let t := Tsfn lp.phi (Real.sin lp.phi) op.sys.ellipsoid.e
  let rho := op.F * t ^ op.n
  ⟨rho * Real.sin (op.n * lp.lam), op.rho0 - rho * Real.cos (op.n * lp.lam)⟩

/-- `LCC.Forward` with the Go signature `(*CoordXY, error)`. -/
noncomputable def lccForward (op : LCC) (lp : CoordLP) : Except Err CoordXY :=
  .ok (lccForwardXY op lp)

/-- The signed polar radius of `LCC.Inverse` (lines 304-310). -/
noncomputable def lccRPrime (op : LCC) (xy : CoordXY) : ℝ :=
  let deltaE := xy.x
  let deltaN := op.rho0 - xy.y
  let r := Real.sqrt (deltaE * deltaE + deltaN * deltaN)
  if op.n < 0 then -r else r

/-- The isometric-latitude quantity `tPrime` of `LCC.Inverse`
(line 312). -/
noncomputable def lccTPrime (op : LCC) (xy : CoordXY) : ℝ :=
  (lccRPrime op xy / op.F) ^ (1 / op.n)

/-- The longitude of `LCC.Inverse` (lines 313-315):
`thetaPrime / n - lambda0`. -/
noncomputable def lccLon (op : LCC) (xy : CoordXY) : ℝ :=
  atan2 xy.x (op.rho0 - xy.y) / op.n - op.lambda0

/-- The spherical-approximation seed of the latitude iteration of
`LCC.Inverse` (line 317): `π/2 - 2 * atan tPrime`. -/
noncomputable def lccSeedLat (op : LCC) (xy : CoordXY) : ℝ :=
  π / 2 - 2 * Real.arctan (lccTPrime op xy)

/-- One application of the ellipsoidal latitude-correction recurrence of
`LCC.Inverse` (line 319). -/
noncomputable def lccLatStep (e tPrime lat : ℝ) : ℝ :=
  π / 2 - 2 * Real.arctan
    (tPrime * ((1 - e * Real.sin lat) / (1 + e * Real.sin lat)) ^ (e / 2))

/-- The bounded fixed-point iteration of `LCC.Inverse` (lines 318-326):
each pass computes `latNew` and assigns it to `lat`; it breaks when the
two differ by less than `LCCIterationEpsilon`, and the loop runs at most
`fuel = 10` passes, returning the last estimate. -/
noncomputable def lccLatLoop (e tPrime : ℝ) : ℕ → ℝ → ℝ
  | 0, lat => lat
  | n + 1, lat =>
    let latNew := lccLatStep e tPrime lat
    if |latNew - lat| < LCCIterationEpsilon then latNew
    else lccLatLoop e tPrime n latNew

/-- `LCC.Inverse` (`lcc.go` lines 303-329): algebraic inversion of the
conic equations plus the bounded latitude iteration; its only return is
`(lp, nil)` -- exceeding the iteration bound is not an error. -/
noncomputable def lccInverse (op : LCC) (xy : CoordXY) : Except Err CoordLP :=
  .ok ⟨lccLatLoop op.sys.ellipsoid.e (lccTPrime op xy) 10 (lccSeedLat op xy),
       lccLon op xy⟩

/-- `lccSetup` (`lcc.go` lines 331-378): requires `lat_0`, `lat_1` and
`lon_0`; `lat_2` defaults to `lat_1`, `x_0`/`y_0` default to `0`;
derives the cone constant `n`, the cone factor `F` and the origin
radius `rho0` from `Msfn`/`Tsfn` at the standard parallels. -/
noncomputable def lccSetup (sys : System) : Except Err LCC :=
  match GetAsFloat sys.projString "lat_0" with
  | none => .error .invalidArg
  | some phi0 =>
  match GetAsFloat sys.projString "lat_1" with
  | none => .error .invalidArg
  | some phi1 =>
  let phi2 : ℚ :=
    match GetAsFloat sys.projString "lat_2" with
    | none => phi1
    | some v => v
  match GetAsFloat sys.projString "lon_0" with
  | none => .error .invalidArg
  | some lambda0 =>
  let x0 : ℚ := (GetAsFloat sys.projString "x_0").getD 0
  let y0 : ℚ := (GetAsFloat sys.projString "y_0").getD 0
  let rphi0 := DDToR (phi0 : ℝ)
  let rphi1 := DDToR (phi1 : ℝ)
  let rphi2 := DDToR (phi2 : ℝ)
  let rlambda0 := DDToR (lambda0 : ℝ)
  let E := sys.ellipsoid
  let m1 := Msfn (Real.sin rphi1) (Real.cos rphi1) E.es
  let t1 := Tsfn rphi1 (Real.sin rphi1) E.e
  let m2 := Msfn (Real.sin rphi2) (Real.cos rphi2) E.es
  let t2 := Tsfn rphi2 (Real.sin rphi2) E.e
  let n := Real.log (m1 / m2) / Real.log (t1 / t2)
  let F := m1 / (n * t1 ^ n)
  let t0 := Tsfn rphi0 (Real.sin rphi0) E.e
  let rho0 := F * t0 ^ n
  .ok ⟨sys, n, F, rho0, rlambda0, rphi0, rphi1, rphi2, (x0 : ℝ), (y0 : ℝ)⟩

/-- `NewLCC` (`lcc.go` lines 277-286): runs `lccSetup` and returns the
operation; the system is not modified. -/
noncomputable def NewLCC (sys : System) : Except Err (System × LCC) :=
  (lccSetup sys).map (fun op => (sys, op))

/-! ## Registry, system construction and the conversion facade
(package `proj` and the `core` registry, the latter modelled from the
spec) -/

/-- The operation instances of the embedding, one variant per registered
projection family whose source is in the tree. -/
inductive OpInstance where
  | wintri (op : Wintri)
  | lcc (op : LCC)

/-- Forward dispatch over the operation instance
(`core.IConvertLPToXY.Forward`). -/
noncomputable def opForward : OpInstance → CoordLP → Except Err CoordXY
  | .wintri op => wintriForward op
  | .lcc op => lccForward op

/-- Inverse dispatch over the operation instance
(`core.IConvertLPToXY.Inverse`). -/
noncomputable def opInverse : OpInstance → CoordXY → Except Err CoordLP
  | .wintri op => wintriInverse op
  | .lcc op => lccInverse op

/-- Modelled from the spec: the write-once operation registry
(section 4.3), populated at startup by the `init` self-registration of
each projection family.  The families whose sources are in the tree
register `wintri` and `lcc`; a longitude/latitude family is not
registered.  The constructor receives the system and returns the
(possibly updated) system with the operation. -/
noncomputable def registryLookup (name : String) :
    Option (System → Except Err (System × OpInstance)) :=
  if name == "wintri" then
    some (fun sys =>
      (NewWintri sys).map (fun p => (p.1, OpInstance.wintri p.2)))
  else if name == "lcc" then
    some (fun sys => (NewLCC sys).map (fun p => (p.1, OpInstance.lcc p.2)))
  else none

/-- Every registered family implements `ConvertLPToXY`
(`IsConvertLPToXY` of the operation description). -/
def opIsConvertLPToXY : OpInstance → Bool := fun _ => true

/-- Modelled from the spec: `core.NewSystem` (section 4.4): look up the
`proj` family name (failing with `UnsupportedProjection` when absent or
unregistered), build the ellipsoid, and invoke the family's
constructor. -/
noncomputable def NewSystem (ps : ProjString) :
    Except Err (System × OpInstance) :=
  match GetAsString ps "proj" with
  | none => .error .unsupportedProjection
  | some name =>
    match registryLookup name with
    | none => .error .unsupportedProjection
    | some ctor => do
      let ell ← buildEllipsoid ps
      ctor ⟨ps, ell⟩

/-- `isGeographicSystem` (facade): the definition string parses and its
`proj` family name is one of the longitude/latitude aliases. -/
def isGeographicSystem (proj4 : String) : Bool :=
  match NewProjString proj4 with
  | .error _ => false
  | .ok ps =>
    let proj := (GetAsString ps "proj").getD ""
    proj == "longlat" || proj == "latlong" || proj == "latlon" || proj == "lonlat"

/-- The `conversion` object of the facade: the parsed string, the
system, and the converter (the operation instance; the Go `operation`
and `converter` fields hold the same object and the `nil` checks of
`convert`/`inverse` cannot fire for a value of this type). -/
structure Conversion where
  projString : ProjString
  system : System
  converter : OpInstance

/-- `newConversion` (facade): parse, build the system and operation, and
check that the operation supports `ConvertLPToXY`. -/
noncomputable def newConversion (proj4 : String) : Except Err Conversion :=
  match NewProjString proj4 with
  | .error e => .error e
  | .ok ps =>
    match NewSystem ps with
    | .error e => .error e
    | .ok (sys, opx) =>
      if opIsConvertLPToXY opx then .ok ⟨ps, sys, opx⟩
      else .error .unsupportedProjection

/-- The per-pair loop shared by `conversion.convert` and
`conversion.inverse`: apply `f` to consecutive pairs, propagating the
first error.  Called only on even-length input. -/
noncomputable def mapPairs (f : ℝ → ℝ → Except Err (ℝ × ℝ)) :
    List ℝ → Except Err (List ℝ)
  | [] => .ok []
  | [_] => .ok []
  | a :: b :: rest => do
    let p ← f a b
    let out ← mapPairs f rest
    .ok (p.1 :: p.2 :: out)

/-- `conversion.convert` (facade lines 207-234): reject odd-length input
with the even-number error (`InvalidArgumentCount` in the spec's
terms), then convert each lon/lat degree pair through `Forward`. -/
noncomputable def Conversion.convert (conv : Conversion) (input : List ℝ) :
    Except Err (List ℝ) :=
  if input.length % 2 ≠ 0 then .error .invalidArgumentCount
  else
    mapPairs (fun lon lat => do
      let xy ← opForward conv.converter ⟨DDToR lat, DDToR lon⟩
      .ok (xy.x, xy.y)) input

/-- `conversion.inverse` (facade lines 236-266): reject odd-length input,
then convert each x/y pair through `Inverse` and back to degrees. -/
noncomputable def Conversion.inverse (conv : Conversion) (input : List ℝ) :
    Except Err (List ℝ) :=
  if input.length % 2 ≠ 0 then .error .invalidArgumentCount
  else
    mapPairs (fun x y => do
      let lp ← opInverse conv.converter ⟨x, y⟩
      .ok (RToDD lp.lam, RToDD lp.phi)) input

namespace Proj

/-- `proj.Convert` (facade lines 49-62): short-circuit to an identity
copy when the definition string denotes a geographic system, otherwise
build a conversion and run it forward. -/
noncomputable def Convert (proj4 : String) (input : List ℝ) :
    Except Err (List ℝ) :=
  if isGeographicSystem proj4 then .ok input
  else
    match newConversion proj4 with
    | .error e => .error e
    | .ok conv => conv.convert input

/-- `proj.Inverse` (facade lines 73-80): build a conversion and run it
inverse; there is no geographic short-circuit on this path. -/
noncomputable def Inverse (proj4 : String) (input : List ℝ) :
    Except Err (List ℝ) :=
  match newConversion proj4 with
  | .error e => .error e
  | .ok conv => conv.inverse input

end Proj

/-! ## Concrete instances used by witnesses -/

/-- A system with an empty parameter set and a unit sphere, used to
instantiate universally quantified theorems at a concrete operation. -/
noncomputable def sysEmpty : System := ⟨[], ⟨1, 0, 0⟩⟩

/-- A system whose `lat_1` parameter is `100` degrees, beyond the pole. -/
noncomputable def sysLat100 : System := ⟨[("lat_1", "100")], ⟨1, 0, 0⟩⟩

/-- The Winkel Tripel operation with the default standard parallel. -/
noncomputable def wintriOpDefault : Wintri := (wintriSetup sysEmpty).2

/-- A concrete conversion carrying the default Winkel Tripel operation. -/
noncomputable def convWintri : Conversion :=
  ⟨[("proj", "wintri")], sysEmpty, .wintri wintriOpDefault⟩

/-- A concrete LCC operation with cone constant `1`, cone factor `1`,
origin radius `0` and origin longitude `lon_0 = 45°` (`π/4`), on a
sphere; used to exhibit the longitude behaviour of the round trip. -/
noncomputable def lccOpLon45 : LCC := ⟨sysEmpty, 1, 1, 0, π / 4, 0, 0, 0, 0, 0⟩

/-! ## Helper lemmas -/

/-- The three `err != nil` checks in the `Wintri.Inverse` body never
fire: the body with and without them agree. -/
theorem wintriStep_eq_stepT (op : Wintri) (x y : ℝ) (s : CoordLP) :
    wintriStep op x y s = wintriStepT op x y s := rfl

theorem wintriLoop_eq_loopT (op : Wintri) (x y : ℝ) (n : ℕ) (s : CoordLP) :
    wintriInverseLoop op x y n s = wintriInverseLoopT op x y n s := by
  induction n generalizing s with
  | zero => rfl
  | succ n ih =>
    show (match wintriStep op x y s with
      | .done lp => Except.ok lp
      | .fail e => Except.error e
      | .next s' => wintriInverseLoop op x y n s') = _
    rw [wintriStep_eq_stepT]
    show _ = (match wintriStepT op x y s with
      | .done lp => Except.ok lp
      | .fail e => Except.error e
      | .next s' => wintriInverseLoopT op x y n s')
    cases wintriStepT op x y s <;> simp [ih]

/-- The Winkel Tripel forward map fixes the origin. -/
theorem wintriForwardXY_origin (op : Wintri) :
    wintriForwardXY op ⟨0, 0⟩ = ⟨0, 0⟩ := by
  unfold wintriForwardXY
  norm_num [eps10, Real.arccos_one]

/-- C6: the Winkel Tripel inverse iterates at most 30 times
(`wintriInverse` runs the loop with fuel `30`), stops with the current
estimate as soon as both residual components of `forward(estimate)`
minus the target are below `1e-14` in absolute value, and an exhausted
loop returns the last estimate without error. -/
theorem claim_C6_wintri_iteration_policy :
    (∀ (op : Wintri) (xy : CoordXY),
      wintriInverse op xy =
        wintriInverseLoop op xy.x xy.y 30 (wintriSeed op xy.x xy.y)) ∧
    (∀ (op : Wintri) (x y : ℝ) (s : CoordLP) (n : ℕ),
      wintriConverged op x y s →
        wintriInverseLoop op x y (n + 1) s = .ok s) ∧
    (∀ (op : Wintri) (x y : ℝ) (s : CoordLP),
      wintriInverseLoop op x y 0 s = .ok s) := by
  refine ⟨fun op xy => rfl, ?_, fun op x y s => rfl⟩
  intro op x y s n h
  have hs : wintriStep op x y s = .done s := by
    rw [wintriStep_eq_stepT]
    exact if_pos h
  show (match wintriStep op x y s with
    | .done lp => Except.ok lp
    | .fail e => Except.error e
    | .next s' => wintriInverseLoop op x y n s') = _
  rw [hs]

/-- Witness for C6: at the target `(0, 0)` the estimate `(0, 0)` is
already converged, so the loop stops at once with it. -/
theorem claim_C6_witness :
    wintriInverseLoop wintriOpDefault 0 0 1 ⟨0, 0⟩ = .ok ⟨0, 0⟩ := by
  refine claim_C6_wintri_iteration_policy.2.1 wintriOpDefault 0 0 ⟨0, 0⟩ 0 ?_
  unfold wintriConverged wintriResidual
  rw [wintriForwardXY_origin]
  norm_num

/-- C7: an iteration of the Winkel Tripel inverse fails with
`ToleranceCondition` exactly when the estimate is not converged, the
divergence guard does not fire, and the magnitude of the 2×2
finite-difference Jacobian determinant is below `1e-15`. -/
theorem claim_C7_wintri_singular_jacobian :
    ∀ (op : Wintri) (x y : ℝ) (s : CoordLP),
      wintriStep op x y s = .fail .toleranceCondition ↔
        (¬ wintriConverged op x y s ∧ ¬ wintriResetCond op x y s ∧
          |wintriDet op s| < 1e-15) := by
  intro op x y s
  have hstep : wintriStepT op x y s =
      (if |(wintriForwardXY op s).x - x| < 1e-14 ∧
            |(wintriForwardXY op s).y - y| < 1e-14 then WStepResult.done s
       else if |(wintriForwardXY op s).x - x| > 10 ∨
            |(wintriForwardXY op s).y - y| > 10 then
         .next ⟨y * 0.9, x * 0.9 / op.cosLat1⟩
       else if |wintriDet op s| < 1e-15 then .fail .toleranceCondition
       else .next (wintriNewtonNext op x y s)) := rfl
  rw [wintriStep_eq_stepT, hstep]
  simp only [wintriConverged, wintriResidual, wintriResetCond]
  split_ifs with h1 h2 h3 <;> simp_all

/-- C9: `Wintri.Forward` never returns an error -- its single return
path yields the computed coordinate -- and consequently the error
checks on the three `Forward` calls inside `Wintri.Inverse` are
unreachable: the inverse loop coincides with the loop from which those
checks are removed. -/
theorem claim_C9_wintri_forward_total :
    (∀ (op : Wintri) (lp : CoordLP),
      wintriForward op lp = .ok (wintriForwardXY op lp)) ∧
    (∀ (op : Wintri) (x y : ℝ) (n : ℕ) (s : CoordLP),
      wintriInverseLoop op x y n s = wintriInverseLoopT op x y n s) :=
  ⟨fun _ _ => rfl, fun op x y n s => wintriLoop_eq_loopT op x y n s⟩

/-- C8: the LCC inverse latitude is a fixed-point iteration: seeded with
the spherical approximation `π/2 - 2·atan tPrime`, it applies the
ellipsoidal correction recurrence, stops as soon as successive
estimates differ by less than `LCCIterationEpsilon = 1e-18` (keeping
the new estimate), runs at most 10 passes, and exhausting the bound is
not an error -- `LCC.Inverse` always returns the last estimate. -/
theorem claim_C8_lcc_latitude_iteration :
    (∀ (e t lat : ℝ) (n : ℕ),
      |lccLatStep e t lat - lat| < LCCIterationEpsilon →
        lccLatLoop e t (n + 1) lat = lccLatStep e t lat) ∧
    (∀ e t lat : ℝ, lccLatLoop e t 0 lat = lat) ∧
    (∀ (op : LCC) (xy : CoordXY),
      lccInverse op xy =
        .ok ⟨lccLatLoop op.sys.ellipsoid.e (lccTPrime op xy) 10
               (lccSeedLat op xy),
             lccLon op xy⟩) := by
  refine ⟨?_, fun e t lat => rfl, fun op xy => rfl⟩
  intro e t lat n h
  show (let latNew := lccLatStep e t lat;
        if |latNew - lat| < LCCIterationEpsilon then latNew
        else lccLatLoop e t n latNew) = _
  rw [if_pos h]

/-- Witness for C8: on a sphere (`e = 0`) with `tPrime = 0` the
recurrence is constant at `π/2`, so from `lat = π/2` the loop stops
after its first pass. -/
theorem claim_C8_witness :
    lccLatLoop 0 0 1 (π / 2) = lccLatStep 0 0 (π / 2) := by
  refine claim_C8_lcc_latitude_iteration.1 0 0 (π / 2) 0 ?_
  unfold lccLatStep LCCIterationEpsilon
  norm_num [Real.arctan_zero]

/-- C10: `NewWintri` never returns an error, the setup forces the
system ellipsoid's `Es` to `0`, an absent (or non-numeric) `lat_1`
defaults the standard parallel to `acos(2/π)`, and a `lat_1` whose
radian magnitude exceeds `π/2` is clamped to `±π/2` with `cosLat1`
computed from the clamped value. -/
theorem claim_C10_wintri_setup :
    (∀ sys : System, NewWintri sys = .ok (wintriSetup sys)) ∧
    (∀ sys : System, (wintriSetup sys).1.ellipsoid.es = 0) ∧
    (∀ sys : System, GetAsFloat sys.projString "lat_1" = none →
      (wintriSetup sys).2.lat1 = Real.arccos (2 / π) ∧
      (wintriSetup sys).2.cosLat1 = Real.cos (Real.arccos (2 / π))) ∧
    (∀ (sys : System) (v : ℚ),
      GetAsFloat sys.projString "lat_1" = some v →
      π / 2 < |DDToR (v : ℝ)| →
      (wintriSetup sys).2.lat1 = copysign (π / 2) (DDToR (v : ℝ)) ∧
      (wintriSetup sys).2.cosLat1 =
        Real.cos (copysign (π / 2) (DDToR (v : ℝ)))) := by
  refine ⟨fun sys => rfl, fun sys => rfl, ?_, ?_⟩
  · intro sys h
    have hle : ¬ (|Real.arccos (2 / π)| > π / 2) := by
      rw [abs_of_nonneg (Real.arccos_nonneg _)]
      simp only [not_lt]
      rw [Real.arccos_le_pi_div_two]
      positivity
    unfold wintriSetup
    rw [h]
    simp only [if_neg hle]
    exact ⟨trivial, trivial⟩
  · intro sys v h hgt
    have hgt' : |DDToR (v : ℝ)| > π / 2 := hgt
    unfold wintriSetup
    rw [h]
    simp only [if_pos hgt']
    exact ⟨trivial, trivial⟩

/-- Witness for C10: a system without `lat_1` gets the default standard
parallel, and one with `lat_1 = 100` (degrees, beyond the pole) gets it
clamped to `±π/2`. -/
theorem claim_C10_witness :
    (wintriSetup sysEmpty).2.lat1 = Real.arccos (2 / π) ∧
    (wintriSetup sysLat100).2.lat1 =
      copysign (π / 2) (DDToR ((100 : ℚ) : ℝ)) := by
  constructor
  · exact (claim_C10_wintri_setup.2.2.1 sysEmpty rfl).1
  · refine (claim_C10_wintri_setup.2.2.2 sysLat100 100 (by decide) ?_).1
    have h100 : DDToR ((100 : ℚ) : ℝ) = 100 * π / 180 := by
      norm_num [DDToR]
    rw [h100, abs_of_nonneg (by positivity)]
    nlinarith [Real.pi_pos]

/-- C4, counterexample: against the claim that `Inverse` also passes
geographic definitions through unchanged, `Inverse("+proj=longlat",
[])` does not return the input: the facade's inverse path has no
geographic short-circuit and the longitude/latitude aliases name no
registered operation, so it fails with `UnsupportedProjection`. -/
theorem claim_C4_counterexample :
    Proj.Inverse "+proj=longlat" ([] : List ℝ) =
      .error .unsupportedProjection := rfl

/-- C4, amended: `Convert` short-circuits to an identity copy for every
definition string whose family name is a longitude/latitude alias, for
point arrays of any length; `Inverse` has no such short-circuit and
fails with `UnsupportedProjection` on those definition strings. -/
theorem claim_C4_geographic_passthrough :
    (∀ (s : String) (pts : List ℝ),
      isGeographicSystem s = true → Proj.Convert s pts = .ok pts) ∧
    (∀ a ∈ (["longlat", "latlong", "latlon", "lonlat"] : List String),
      ∀ pts : List ℝ,
        Proj.Inverse ("+proj=" ++ a) pts = .error .unsupportedProjection) := by
  constructor
  · intro s pts h
    unfold Proj.Convert
    rw [h]
    simp
  · intro a ha pts
    fin_cases ha <;> rfl

/-- Witness for C4: the alias `latlon` with a concrete point array. -/
theorem claim_C4_witness :
    Proj.Convert "+proj=latlon" [3, 4] = .ok [3, 4] ∧
    Proj.Inverse "+proj=latlon" [3, 4] = .error .unsupportedProjection := by
  constructor
  · exact claim_C4_geographic_passthrough.1 "+proj=latlon" [3, 4] (by decide)
  · have h := claim_C4_geographic_passthrough.2 "latlon" (by simp) [3, 4]
    rwa [show ("+proj=" ++ "latlon" : String) = "+proj=latlon" from rfl] at h

/-- C5, counterexample: against the claim that every definition string
(including geographic ones) rejects odd-length arrays, the geographic
short-circuit of `Convert` runs before the length check, so
`Convert("+proj=longlat", [0])` succeeds on a 1-element array. -/
theorem claim_C5_counterexample :
    Proj.Convert "+proj=longlat" [0] = .ok [0] := by
  unfold Proj.Convert
  rw [show isGeographicSystem "+proj=longlat" = true by decide]
  simp

/-- C5, amended: for every successfully constructed conversion, both
directions fail with `InvalidArgumentCount` on every odd-length array
and trivially succeed with the empty array; the geographic
short-circuit of `Convert` bypasses this check, and definitions that
fail to parse or to resolve error before any length check. -/
theorem claim_C5_shape_validation :
    ∀ (c : Conversion) (pts : List ℝ),
      (pts.length % 2 = 1 →
        c.convert pts = .error .invalidArgumentCount ∧
        c.inverse pts = .error .invalidArgumentCount) ∧
      (c.convert [] = .ok [] ∧ c.inverse [] = .ok []) := by
  intro c pts
  refine ⟨fun h => ?_, ?_, ?_⟩
  · have h' : pts.length % 2 ≠ 0 := by omega
    exact ⟨by unfold Conversion.convert; rw [if_pos h'],
           by unfold Conversion.inverse; rw [if_pos h']⟩
  · simp [Conversion.convert, mapPairs]
  · simp [Conversion.inverse, mapPairs]

/-- Witness for C5: a concrete conversion (default Winkel Tripel) on
the odd-length array `[0]`. -/
theorem claim_C5_witness :
    convWintri.convert [0] = .error .invalidArgumentCount ∧
    convWintri.inverse [0] = .error .invalidArgumentCount :=
  (claim_C5_shape_validation convWintri [0]).1 (by simp)

/-- On a sphere, the isometric-latitude quantity at the equator is 1. -/
theorem tsfn_zero_sphere : Tsfn 0 (Real.sin 0) 0 = 1 := by
  unfold Tsfn
  have h4 : (0.5 : ℝ) * (π / 2 - 0) = π / 4 := by ring
  rw [h4, Real.tan_pi_div_four]
  simp [Real.sin_zero]

/-- The forward image of the equator point `lam = 1/2` under the
concrete `lon_0 = 45°` LCC operation. -/
theorem lccForward_lon45 :
    lccForwardXY lccOpLon45 ⟨0, 1 / 2⟩ = ⟨Real.sin (1 / 2), -Real.cos (1 / 2)⟩ := by
  unfold lccForwardXY lccOpLon45 sysEmpty
  dsimp only
  rw [tsfn_zero_sphere, Real.one_rpow]
  norm_num

/-- The isometric quantity recovered by the inverse at that image is 1. -/
theorem lccTPrime_lon45 :
    lccTPrime lccOpLon45 ⟨Real.sin (1 / 2), -Real.cos (1 / 2)⟩ = 1 := by
  unfold lccTPrime lccRPrime lccOpLon45
  dsimp only
  rw [show (0 : ℝ) - -Real.cos (1 / 2) = Real.cos (1 / 2) by ring]
  rw [show Real.sin (1 / 2) * Real.sin (1 / 2) +
        Real.cos (1 / 2) * Real.cos (1 / 2) = 1 by
      rw [← pow_two, ← pow_two]; exact Real.sin_sq_add_cos_sq _]
  rw [Real.sqrt_one, if_neg (by norm_num : ¬ ((1 : ℝ) < 0))]
  norm_num [Real.one_rpow]

/-- The longitude of the inverse at that image is `1/2 - π/4`. -/
theorem lccLon_lon45 :
    lccLon lccOpLon45 ⟨Real.sin (1 / 2), -Real.cos (1 / 2)⟩ = 1 / 2 - π / 4 := by
  have hhalf : (1 / 2 : ℝ) < π / 2 := by nlinarith [Real.pi_gt_three]
  have hneg : -(π / 2) < (1 / 2 : ℝ) := by nlinarith [Real.pi_gt_three]
  have hcos : 0 < Real.cos (1 / 2) := Real.cos_pos_of_mem_Ioo ⟨hneg, hhalf⟩
  unfold lccLon lccOpLon45 atan2
  dsimp only
  rw [show (0 : ℝ) - -Real.cos (1 / 2) = Real.cos (1 / 2) by ring]
  rw [if_pos hcos, ← Real.tan_eq_sin_div_cos, Real.arctan_tan hneg hhalf]
  norm_num

/-- C1: evaluated at the failing input, the LCC round trip shifts the
longitude by `-lon_0`: `Forward` uses the raw longitude while `Inverse`
subtracts `lambda0`, so `Inverse(Forward(lp))` returns `lam - lon_0`,
which misses `lam` by `π/4 > 1e-6` when `lon_0 = 45°`. -/
theorem claim_C1_lcc_roundtrip_shift :
    lccInverse lccOpLon45 (lccForwardXY lccOpLon45 ⟨0, 1 / 2⟩) =
      .ok ⟨0, 1 / 2 - π / 4⟩ ∧
    1e-6 < |(1 / 2 - π / 4) - (1 / 2 : ℝ)| := by
  constructor
  · rw [lccForward_lon45]
    have hseed : lccSeedLat lccOpLon45 ⟨Real.sin (1 / 2), -Real.cos (1 / 2)⟩ = 0 := by
      unfold lccSeedLat
      rw [lccTPrime_lon45, Real.arctan_one]
      ring
    have hstep : lccLatStep 0 1 0 = 0 := by
      unfold lccLatStep
      norm_num [Real.sin_zero, Real.rpow_zero, Real.arctan_one]
      ring
    have hloop : lccLatLoop 0 1 10 0 = 0 := by
      have h1 : lccLatLoop 0 1 10 0 =
          (if |lccLatStep 0 1 0 - 0| < LCCIterationEpsilon then lccLatStep 0 1 0
           else lccLatLoop 0 1 9 (lccLatStep 0 1 0)) := rfl
      rw [h1, hstep]
      norm_num [LCCIterationEpsilon]
    unfold lccInverse
    rw [show lccOpLon45.sys.ellipsoid.e = 0 from rfl, lccTPrime_lon45, hseed,
      hloop, lccLon_lon45]
  · rw [show (1 / 2 - π / 4) - (1 / 2 : ℝ) = -(π / 4) by ring, abs_neg,
      abs_of_pos (by positivity)]
    nlinarith [Real.pi_gt_three]

/-- The latitude clamp always lands in `[-π/2, π/2]`. -/
theorem clampPhi_mem (v : ℝ) : -(π / 2) ≤ clampPhi v ∧ clampPhi v ≤ π / 2 := by
  have hπ := Real.pi_pos
  unfold clampPhi
  split_ifs with h1 h2 <;> constructor <;> linarith

/-- The longitude wrap always lands in `[-π, π]`. -/
theorem wrapLam_mem (v : ℝ) : -π ≤ wrapLam v ∧ wrapLam v ≤ π := by
  have hπ := Real.pi_pos
  have h2π : (0 : ℝ) < 2 * π := by linarith
  unfold wrapLam
  by_cases hA : v > π
  · rw [if_pos hA]
    set c : ℤ := ⌈(v - π) / (2 * π)⌉ with hc
    have hub : (v - π) / (2 * π) ≤ (c : ℝ) := Int.le_ceil _
    have hub' : v - π ≤ (c : ℝ) * (2 * π) := (div_le_iff₀ h2π).mp hub
    have hlb := Int.ceil_lt_add_one ((v - π) / (2 * π))
    have hlb' : (c : ℝ) * (2 * π) < (v - π) + 2 * π := by
      have := mul_lt_mul_of_pos_right hlb h2π
      rwa [add_mul, one_mul, div_mul_cancel₀ _ (ne_of_gt h2π)] at this
    have hIn : ¬ (v - 2 * π * (c : ℝ) < -π) := by push_neg; nlinarith
    rw [if_neg hIn]
    constructor <;> nlinarith
  · rw [if_neg hA]
    by_cases hB : v < -π
    · rw [if_pos hB]
      set c : ℤ := ⌈(-π - v) / (2 * π)⌉ with hc
      have hub : (-π - v) / (2 * π) ≤ (c : ℝ) := Int.le_ceil _
      have hub' : -π - v ≤ (c : ℝ) * (2 * π) := (div_le_iff₀ h2π).mp hub
      have hlb := Int.ceil_lt_add_one ((-π - v) / (2 * π))
      have hlb' : (c : ℝ) * (2 * π) < (-π - v) + 2 * π := by
        have := mul_lt_mul_of_pos_right hlb h2π
        rwa [add_mul, one_mul, div_mul_cancel₀ _ (ne_of_gt h2π)] at this
      constructor <;> nlinarith
    · rw [if_neg hB]
      push_neg at hA hB
      exact ⟨hB, hA⟩

/-- C3, amended: after every damped Newton update the estimate is
re-clamped (`phi` into `[-π/2, π/2]`) and normalized (`lam` wrapped
into `[-π, π]`); the divergence reset, however, restores an unclamped
estimate `(0.9·y, 0.9·x/cosLat1)`, so for a target far outside the
valid range `Inverse` can return a latitude outside `[-π/2, π/2]`
without error (see the counterexample), and the only error it can
produce is `ToleranceCondition`. -/
theorem claim_C3_newton_step_clamped :
    ∀ (op : Wintri) (x y : ℝ) (s : CoordLP),
      -(π / 2) ≤ (wintriNewtonNext op x y s).phi ∧
      (wintriNewtonNext op x y s).phi ≤ π / 2 ∧
      -π ≤ (wintriNewtonNext op x y s).lam ∧
      (wintriNewtonNext op x y s).lam ≤ π := by
  intro op x y s
  exact ⟨(clampPhi_mem _).1, (clampPhi_mem _).2,
         (wrapLam_mem _).1, (wrapLam_mem _).2⟩

/-- Definitional spelling of the loop body used to evaluate concrete
iterations. -/
theorem wintriStepT_eq (op : Wintri) (x y : ℝ) (s : CoordLP) :
    wintriStepT op x y s =
      (if |(wintriForwardXY op s).x - x| < 1e-14 ∧
            |(wintriForwardXY op s).y - y| < 1e-14 then WStepResult.done s
       else if |(wintriForwardXY op s).x - x| > 10 ∨
            |(wintriForwardXY op s).y - y| > 10 then
         .next ⟨y * 0.9, x * 0.9 / op.cosLat1⟩
       else if |wintriDet op s| < 1e-15 then .fail .toleranceCondition
       else .next (wintriNewtonNext op x y s)) := rfl

/-- The seed of the inverse run at the far-out target `(0, 100)` is the
clamped state `(π/2, 0)` (spelled `π * 0.5` as in the clamp). -/
theorem wintriSeed_0_100 (op : Wintri) :
    wintriSeed op 0 100 = ⟨π * 0.5, 0⟩ := by
  have hπ := Real.pi_lt_d2
  have hπ0 := Real.pi_pos
  unfold wintriSeed clampPhi clampLamSeed
  rw [zero_div]
  rw [if_pos (by nlinarith : (100 : ℝ) > π * 0.5)]
  rw [if_neg (by nlinarith : ¬ ((0 : ℝ) > π)),
      if_neg (by nlinarith : ¬ ((0 : ℝ) < -π))]

/-- The Winkel Tripel forward map sends the pole state `(π/2, 0)` to
`(0, π/2)`. -/
theorem wintriForwardXY_pole (op : Wintri) :
    wintriForwardXY op ⟨π * 0.5, 0⟩ = ⟨0, π * 0.5⟩ := by
  have hπ0 := Real.pi_pos
  unfold wintriForwardXY eps10
  dsimp only
  rw [show π * 0.5 = π / 2 by ring, Real.cos_pi_div_two,
      show (0 : ℝ) * 0.5 = 0 by norm_num, Real.cos_zero, Real.sin_zero,
      show (0 : ℝ) * 1 = 0 by norm_num, Real.arccos_zero]
  rw [if_neg (by nlinarith [Real.pi_gt_three] : ¬ (π / 2 < (1e-10 : ℝ)))]
  rw [Real.sin_pi_div_two]
  rw [if_neg (by norm_num : ¬ ((1 : ℝ) < (1e-10 : ℝ)))]
  simp only [CoordXY.mk.injEq]
  constructor <;> ring

/-- Reduction of `arccos (cos 90)` to the principal value `90 - 28π`. -/
theorem arccos_cos_90 : Real.arccos (Real.cos 90) = 90 - 28 * π := by
  have h1 : Real.cos (90 : ℝ) = Real.cos (90 - 28 * π) := by
    have h := Real.cos_add_int_mul_two_pi (90 - 28 * π) 14
    rw [show (90 - 28 * π) + (14 : ℤ) * (2 * π) = 90 by push_cast; ring] at h
    exact h
  rw [h1]
  exact Real.arccos_cos (by nlinarith [Real.pi_lt_d6])
    (by nlinarith [Real.pi_gt_d6])

/-- Periodicity: `sin 90 = sin (90 - 28π)`. -/
theorem sin_90_shift : Real.sin (90 : ℝ) = Real.sin (90 - 28 * π) := by
  have h := Real.sin_add_int_mul_two_pi (90 - 28 * π) 14
  rw [show (90 - 28 * π) + (14 : ℤ) * (2 * π) = 90 by push_cast; ring] at h
  exact h

/-- The principal value `90 - 28π` has sine at least `1/2`. -/
theorem sin_90_shift_lb : (1 / 2 : ℝ) ≤ Real.sin (90 - 28 * π) := by
  rw [show (90 : ℝ) - 28 * π = π - (29 * π - 90) by ring, Real.sin_pi_sub]
  have h6 : π / 6 ≤ 29 * π - 90 := by nlinarith [Real.pi_gt_d6]
  have h2 : 29 * π - 90 ≤ π / 2 := by nlinarith [Real.pi_lt_d6]
  have hπ0 := Real.pi_pos
  calc (1 / 2 : ℝ) = Real.sin (π / 6) := (Real.sin_pi_div_six).symm
    _ ≤ Real.sin (29 * π - 90) := by
        refine Real.strictMonoOn_sin.monotoneOn ?_ ?_ h6
        · constructor <;> [linarith; linarith]
        · constructor <;> [linarith; linarith]

/-- The Winkel Tripel forward map at the unclamped reset state
`(90, 0)` evaluates to `(0, 90 - 14π)`. -/
theorem wintriForwardXY_90 (op : Wintri) :
    wintriForwardXY op ⟨90, 0⟩ = ⟨0, 90 - 14 * π⟩ := by
  have hlb := sin_90_shift_lb
  have hne : Real.sin (90 - 28 * π) ≠ 0 := by linarith
  unfold wintriForwardXY eps10
  dsimp only
  rw [show (0 : ℝ) * 0.5 = 0 by norm_num, Real.cos_zero, Real.sin_zero,
      mul_one, arccos_cos_90]
  rw [if_neg (by nlinarith [Real.pi_lt_d6] : ¬ ((90 : ℝ) - 28 * π < 1e-10))]
  rw [if_neg (by nlinarith : ¬ (Real.sin (90 - 28 * π) < 1e-10))]
  rw [sin_90_shift, mul_comm (Real.sin (90 - 28 * π)) _,
      div_mul_cancel₀ _ hne]
  simp only [CoordXY.mk.injEq]
  constructor <;> ring

/-- At target `(0, 100)`, the loop body at the clamped seed `(π/2, 0)`
takes the divergence-reset branch, yielding the unclamped `(90, 0)`. -/
theorem wintriStep_pole (op : Wintri) :
    wintriStep op 0 100 ⟨π * 0.5, 0⟩ = .next ⟨90, 0⟩ := by
  rw [wintriStep_eq_stepT, wintriStepT_eq, wintriForwardXY_pole]
  dsimp only
  rw [if_neg, if_pos]
  · simp only [WStepResult.next.injEq, CoordLP.mk.injEq]
    constructor
    · norm_num
    · rw [show (0 : ℝ) * 0.9 = 0 by norm_num, zero_div]
  · right
    rw [show π * 0.5 - 100 = -(100 - π * 0.5) by ring, abs_neg,
        abs_of_pos (by nlinarith [Real.pi_lt_d2])]
    nlinarith [Real.pi_lt_d2]
  · intro h
    have h2 := h.2
    rw [show π * 0.5 - 100 = -(100 - π * 0.5) by ring, abs_neg,
        abs_of_pos (by nlinarith [Real.pi_lt_d2])] at h2
    nlinarith [Real.pi_lt_d2]

/-- At target `(0, 100)`, the loop body at the unclamped `(90, 0)`
takes the divergence-reset branch again, reproducing `(90, 0)`. -/
theorem wintriStep_90 (op : Wintri) :
    wintriStep op 0 100 ⟨90, 0⟩ = .next ⟨90, 0⟩ := by
  rw [wintriStep_eq_stepT, wintriStepT_eq, wintriForwardXY_90]
  dsimp only
  rw [if_neg, if_pos]
  · simp only [WStepResult.next.injEq, CoordLP.mk.injEq]
    constructor
    · norm_num
    · rw [show (0 : ℝ) * 0.9 = 0 by norm_num, zero_div]
  · right
    rw [show (90 : ℝ) - 14 * π - 100 = -(10 + 14 * π) by ring, abs_neg,
        abs_of_pos (by nlinarith [Real.pi_pos])]
    nlinarith [Real.pi_pos]
  · intro h
    have h2 := h.2
    rw [show (90 : ℝ) - 14 * π - 100 = -(10 + 14 * π) by ring, abs_neg,
        abs_of_pos (by nlinarith [Real.pi_pos])] at h2
    nlinarith [Real.pi_pos]

/-- Once the state is `(90, 0)`, the loop resets to it forever and
returns it unchanged for any remaining fuel. -/
theorem wintriLoop_90 (op : Wintri) (n : ℕ) :
    wintriInverseLoop op 0 100 n ⟨90, 0⟩ = .ok ⟨90, 0⟩ := by
  induction n with
  | zero => rfl
  | succ n ih =>
    show (match wintriStep op 0 100 ⟨90, 0⟩ with
      | .done lp => Except.ok lp
      | .fail e => Except.error e
      | .next s' => wintriInverseLoop op 0 100 n s') = _
    rw [wintriStep_90]
    exact ih

/-- C3, counterexample: at the far-out target `(x, y) = (0, 100)` the
Winkel Tripel inverse returns `(phi, lam) = (90, 0)` without error,
and `90` radians is far outside the clamped latitude range
`[-π/2, π/2]` -- the divergence reset skipped the re-clamp and the
loop exhausted its iterations in that unclamped state. -/
theorem claim_C3_counterexample :
    wintriInverse wintriOpDefault ⟨0, 100⟩ = .ok ⟨90, 0⟩ ∧
    π / 2 < (90 : ℝ) := by
  constructor
  · show wintriInverseLoop wintriOpDefault 0 100 30
      (wintriSeed wintriOpDefault 0 100) = _
    rw [wintriSeed_0_100]
    show (match wintriStep wintriOpDefault 0 100 ⟨π * 0.5, 0⟩ with
      | .done lp => Except.ok lp
      | .fail e => Except.error e
      | .next s' => wintriInverseLoop wintriOpDefault 0 100 29 s') = _
    rw [wintriStep_pole]
    exact wintriLoop_90 wintriOpDefault 29
  · nlinarith [Real.pi_lt_d2]
